import Mathlib

/-!
Verification of the data-model mapping and serialization layer of the
`useshortcut` client library (files `useshortcut/models.py` and
`useshortcut/client.py`).

The Python code is shallowly embedded: a runtime Python value is a `PyVal`,
a Python `dict` with string keys is a `Doc` (an insertion-ordered
association list with, in actual use, unique keys), and each
`Entity.from_json` classmethod becomes an executable Lean function from a
document to `Except PyErr (Doc × PyVal)`, returning both the final state of
the (mutable, possibly updated in place) input document and the constructed
dataclass instance.  Dataclass construction by keyword unpacking
(`cls(**data)`) is modelled once, by `dcCall`, against a per-class list of
field specifications copied from the dataclass declarations.
-/

/-- A Python `datetime` value: calendar fields plus an optional fixed UTC
offset in minutes (`tz = none` models a naive datetime, i.e. `tzinfo is
None`). -/
structure DT where
  year : Nat
  month : Nat
  day : Nat
  hour : Nat
  minute : Nat
  second : Nat
  tz : Option Int
deriving Repr

/-- A runtime Python value, as far as the (de)serialization layer can
observe one: `None`, booleans, integers, strings, `datetime` objects,
lists, dicts with string keys, and dataclass instances (`pobj` carries the
class name and the instance `__dict__` as an ordered field list). -/
inductive PyVal where
  | pnone : PyVal
  | pbool (b : Bool) : PyVal
  | pint (n : Int) : PyVal
  | pstr (s : String) : PyVal
  | pdt (d : DT) : PyVal
  | plist (xs : List PyVal) : PyVal
  | pdict (kvs : List (String × PyVal)) : PyVal
  | pobj (cls : String) (fields : List (String × PyVal)) : PyVal
deriving Repr

/-- A Python dict with string keys: an insertion-ordered association list.
Python guarantees key uniqueness; functions below use first-occurrence
semantics, which coincides with Python on duplicate-free lists. -/
abbrev Doc := List (String × PyVal)

/-- Membership and value lookup, `data[k]` / `k in data`. -/
def dget (d : Doc) (k : String) : Option PyVal :=
  match d with
  | [] => none
  | (k', v) :: rest => if k' = k then some v else dget rest k

/-- Test for `k in data`. -/
def hasKey (d : Doc) (k : String) : Bool :=
  (dget d k).isSome

/-- In-place update `data[k] = v` of an existing key: every binding of `k`
is replaced at its position (Python dicts hold at most one). -/
def setKey (d : Doc) (k : String) (v : PyVal) : Doc :=
  match d with
  | [] => []
  | (k', v') :: rest =>
    (if k' = k then (k', v) else (k', v')) :: setKey rest k v

/-- Python truthiness of a value, as used in `if data["categories"]:` style
guards: `None`, `False`, `0`, `""` and empty collections are falsy. -/
def truthy : PyVal → Bool
  | .pnone => false
  | .pbool b => b
  | .pint n => n != 0
  | .pstr s => s ≠ ""
  | .pdt _ => true
  | .plist xs => !xs.isEmpty
  | .pdict kvs => !kvs.isEmpty
  | .pobj _ _ => true

/-- Test whether a value is Python `None` (the `v is not None` check of
`_clean_dict` negated). -/
def isNone : PyVal → Bool
  | .pnone => true
  | _ => false

/-- An exception escaping the decode/encode layer.  `unexpectedKw` and
`missingArgs` are the two `TypeError` shapes raised by dataclass keyword
unpacking (the second carries the names of all absent required fields, as
CPython's message does); `valueError` is raised by
`datetime.fromisoformat` on a malformed string; `typeError` covers the
remaining dynamic-type failures (e.g. unpacking a non-mapping). -/
inductive PyErr where
  | unexpectedKw (cls : String) (key : String) : PyErr
  | missingArgs (cls : String) (fields : List String) : PyErr
  | valueError (s : String) : PyErr
  | typeError (msg : String) : PyErr
deriving Repr

/-- A dataclass field declaration: its name and its default
(`none` when the field is required, `some v` when the declaration carries
default `v`; a `field(default_factory=list)` default is `some (plist [])`,
evaluated fresh per instance). -/
structure FieldSpec where
  name : String
  default : Option PyVal
deriving Repr

/-- The names of the required fields a keyword-unpacking call leaves
unbound. -/
def dcMissing (specs : List FieldSpec) (data : Doc) : List String :=
  (specs.filter (fun f => f.default.isNone && !hasKey data f.name)).map
    FieldSpec.name

/-- Model of dataclass construction by keyword unpacking, `cls(**data)`:
a key of `data` that is not a declared field raises `TypeError`
(unexpected keyword argument, reported for the first such key in dict
order); otherwise every required field must be bound by `data`, and the
instance binds each declared field to its value in `data` when present and
to its declared default otherwise. -/
def dcCall (cls : String) (specs : List FieldSpec) (data : Doc) :
    Except PyErr PyVal :=
  match data.find? (fun kv => !(specs.map FieldSpec.name).contains kv.1) with
  | some kv => .error (.unexpectedKw cls kv.1)
  | none =>
    if (dcMissing specs data).isEmpty then
      .ok (.pobj cls (specs.map
        (fun f => (f.name, (dget data f.name).getD (f.default.getD .pnone)))))
    else
      .error (.missingArgs cls (dcMissing specs data))

/-! ### The temporal normalizer

Every `from_json` converts a date field present as a string with
`datetime.fromisoformat(s.replace("Z", "+00:00"))`.  `pyFromIso` models
`datetime.fromisoformat` on the grammar relevant here: a calendar date
`YYYY-MM-DD`, optionally followed by a separator and a time `HH:MM[:SS]`,
optionally followed by a numeric offset `+HH:MM` / `-HH:MM`.  A bare date
parses to midnight with no offset (a naive datetime), exactly as in
Python.  Anything else is a `ValueError` (`none`). -/

/-- Value of a decimal digit character. -/
def digitVal (c : Char) : Option Nat :=
  if c.isDigit then some (c.toNat - 48) else none

/-- Parse exactly two digits. -/
def parse2 : List Char → Option (Nat × List Char)
  | a :: b :: rest => do
    let x ← digitVal a
    let y ← digitVal b
    some (10 * x + y, rest)
  | _ => none

/-- Parse exactly four digits. -/
def parse4 : List Char → Option (Nat × List Char)
  | a :: b :: c :: d :: rest => do
    let x ← digitVal a
    let y ← digitVal b
    let z ← digitVal c
    let w ← digitVal d
    some (1000 * x + 100 * y + 10 * z + w, rest)
  | _ => none

/-- Expect a given literal character. -/
def expectChar (c : Char) : List Char → Option (List Char)
  | c' :: rest => if c' = c then some rest else none
  | [] => none

/-- Parse the trailing UTC-offset part `±HH:MM` (empty input means no
offset, i.e. a naive result). -/
def parseOffset : List Char → Option (Option Int)
  | [] => some none
  | c :: rest =>
    if c = '+' ∨ c = '-' then do
      let (h, r1) ← parse2 rest
      let r2 ← expectChar ':' r1
      let (m, r3) ← parse2 r2
      if r3.isEmpty ∧ h < 24 ∧ m < 60 then
        some (some (if c = '+' then (60 * h + m : Int) else -(60 * h + m : Int)))
      else none
    else none

/-- Parse the time-of-day part `HH:MM[:SS]` followed by an optional
offset. -/
def parseTime (cs : List Char) : Option (Nat × Nat × Nat × Option Int) := do
  let (h, r1) ← parse2 cs
  let r2 ← expectChar ':' r1
  let (mi, r3) ← parse2 r2
  if h ≥ 24 ∨ mi ≥ 60 then none
  else
    match r3 with
    | ':' :: r4 => do
      let (se, r5) ← parse2 r4
      if se ≥ 60 then none
      else do
        let off ← parseOffset r5
        some (h, mi, se, off)
    | r4 => do
      let off ← parseOffset r4
      some (h, mi, 0, off)

/-- Model of `datetime.fromisoformat` on the formats this code base can
receive: bare calendar dates parse to a naive midnight timestamp, and full
timestamps take their offset (if any) from the trailing `±HH:MM`. -/
def pyFromIso (s : String) : Option DT := do
  let cs := s.toList
  let (y, r1) ← parse4 cs
  let r2 ← expectChar '-' r1
  let (mo, r3) ← parse2 r2
  let r4 ← expectChar '-' r3
  let (d, r5) ← parse2 r4
  if mo = 0 ∨ mo > 12 ∨ d = 0 ∨ d > 31 then none
  else
    match r5 with
    | [] => some ⟨y, mo, d, 0, 0, 0, none⟩
    | sep :: r6 =>
      if sep = 'T' ∨ sep = ' ' then do
        let (h, mi, se, off) ← parseTime r6
        some ⟨y, mo, d, h, mi, se, off⟩
      else none

/-- Left-to-right replacement of every occurrence of a single character,
the `str.replace` algorithm for the one-character pattern this code base
uses. -/
def replaceChar (old : Char) (new : List Char) : List Char → List Char
  | [] => []
  | c :: rest =>
    if c = old then new ++ replaceChar old new rest
    else c :: replaceChar old new rest

/-- The string preprocessing `s.replace("Z", "+00:00")` applied before
`fromisoformat`. -/
def pyReplaceZ (s : String) : String :=
  String.mk (replaceChar 'Z' "+00:00".toList s.toList)

/-- The temporal normalizer applied to one string. -/
def normalizeDT (s : String) : Option DT :=
  pyFromIso (pyReplaceZ s)

/-- One `from_json` date-conversion step: `if f in data and
isinstance(data[f], str): data[f] = datetime.fromisoformat(
data[f].replace("Z", "+00:00"))`.  A malformed string raises
`ValueError`. -/
def convStep (f : String) (d : Doc) : Except PyErr Doc :=
  match dget d f with
  | some (.pstr s) =>
    match normalizeDT s with
    | some dt => .ok (setKey d f (.pdt dt))
    | none => .error (.valueError s)
  | _ => .ok d

/-- Sequential in-place conversion of the given date fields, in source
order. -/
def convertDates (fs : List String) (d : Doc) : Except PyErr Doc :=
  match fs with
  | [] => .ok d
  | f :: rest => do
    let d' ← convStep f d
    convertDates rest d'

/-- Model of `_clean_dict` from `client.py`: drop every key whose value is
`None`, keeping everything else (including `False`, `0` and empty lists)
unchanged and in order. -/
def cleanDict (d : Doc) : Doc :=
  d.filter (fun kv => !isNone kv.2)

/-! ### Field declarations of the entity records

Each list mirrors the corresponding `@dataclass` declaration in
`models.py`, field for field and in declaration order.  `req` is a field
with no default (required), `opt` a field with default `None`, `lst` a
field with `default_factory=list`, and `strDef`/`boolDef` carry literal
defaults. -/

/-- A required dataclass field. -/
def req (n : String) : FieldSpec := ⟨n, none⟩

/-- An optional dataclass field with default `None`. -/
def opt (n : String) : FieldSpec := ⟨n, some .pnone⟩

/-- A dataclass field with `default_factory=list`. -/
def lst (n : String) : FieldSpec := ⟨n, some (.plist [])⟩

/-- A dataclass field with a literal string default. -/
def strDef (n v : String) : FieldSpec := ⟨n, some (.pstr v)⟩

/-- A dataclass field with a literal boolean default. -/
def boolDef (n : String) (b : Bool) : FieldSpec := ⟨n, some (.pbool b)⟩

/-- The declared fields of `Story`. -/
def storyFields : List FieldSpec :=
  [req "name", opt "id", opt "global_id", opt "external_id",
   opt "deadline", opt "description", strDef "story_type" "feature",
   opt "estimate", opt "group_id", opt "story_template_id",
   opt "workflow_state_id", opt "project_id", opt "requested_by_id",
   opt "workflow_id", opt "epic_id", opt "iteration_id",
   opt "parent_story_id", lst "labels", opt "created_at", opt "updated_at",
   opt "app_url", opt "archived", opt "started", opt "completed",
   opt "blocker", opt "moved_at", opt "completed_at",
   opt "completed_at_override", opt "started_at",
   opt "started_at_override", opt "position", opt "blocked",
   lst "pull_requests", lst "story_links", lst "comments", lst "branches",
   lst "tasks", lst "commits", lst "files", lst "external_links",
   lst "group_mention_ids", lst "comment_ids", lst "follower_ids",
   lst "owner_ids", lst "previous_iteration_ids", lst "mention_ids",
   lst "member_mention_ids", lst "label_ids", lst "task_ids",
   lst "file_ids", lst "linked_files", lst "linked_file_ids",
   lst "sub_task_story_ids", lst "custom_fields",
   opt "num_tasks_completed", opt "stats", opt "lead_time",
   opt "cycle_time", opt "formatted_vcs_branch_name",
   strDef "entity_type" "story"]

/-- The date fields converted by `Story.from_json`, in source order. -/
def storyDateFields : List String :=
  ["created_at", "updated_at", "deadline", "moved_at", "completed_at",
   "completed_at_override", "started_at", "started_at_override"]

/-- Model of `Story.from_json`: convert the date fields in place, then
construct the instance by keyword unpacking of the whole document. -/
def storyFromJson (d : Doc) : Except PyErr (Doc × PyVal) := do
  let d' ← convertDates storyDateFields d
  let v ← dcCall "Story" storyFields d'
  .ok (d', v)

/-- The declared fields of `Task`. -/
def taskFields : List FieldSpec :=
  [req "id", req "description", req "complete", req "story_id",
   req "entity_type", req "position", req "created_at",
   opt "completed_at", opt "updated_at", opt "external_id",
   opt "global_id", lst "owner_ids", lst "mention_ids",
   lst "member_mention_ids", lst "group_mention_ids"]

/-- The date fields converted by `Task.from_json`, in source order. -/
def taskDateFields : List String :=
  ["created_at", "updated_at", "completed_at"]

/-- Model of `Task.from_json`. -/
def taskFromJson (d : Doc) : Except PyErr (Doc × PyVal) := do
  let d' ← convertDates taskDateFields d
  let v ← dcCall "Task" taskFields d'
  .ok (d', v)

/-- The declared fields of `Profile`. -/
def profileFields : List FieldSpec :=
  [req "id", req "name", req "mention_name", req "is_owner",
   req "email_address", req "deactivated", opt "gravatar_hash",
   opt "display_icon", strDef "entity_type" "profile",
   opt "two_factor_auth_activated", opt "is_agent"]

/-- Model of `Profile.from_json`, which is `cls(**data)` with no
conversions.  Called on a non-mapping value (e.g. `None`), the keyword
unpacking itself raises `TypeError`. -/
def profileFromJson (v : PyVal) : Except PyErr PyVal :=
  match v with
  | .pdict kvs => dcCall "Profile" profileFields kvs
  | _ => .error (.typeError "argument after ** must be a mapping")

/-- The declared fields of `Member` (also its `__annotations__` key
set). -/
def memberFields : List FieldSpec :=
  [req "id", opt "state", strDef "entity_type" "member", opt "global_id",
   opt "profile", opt "role", opt "disabled", opt "mention_name",
   opt "created_at", opt "updated_at"]

/-- The names in `Member.__annotations__`. -/
def memberAnnotations : List String := memberFields.map FieldSpec.name

/-- Model of `Member.from_json`: if `"profile"` is a key, replace its value
in place with `Profile.from_json` of it, then construct the instance from
the document restricted to the declared annotation names. -/
def memberFromJson (d : Doc) : Except PyErr (Doc × PyVal) :=
  match dget d "profile" with
  | some pv => do
    let prof ← profileFromJson pv
    let d' := setKey d "profile" prof
    let v ← dcCall "Member" memberFields
      (d'.filter (fun kv => memberAnnotations.contains kv.1))
    .ok (d', v)
  | none => do
    let v ← dcCall "Member" memberFields
      (d.filter (fun kv => memberAnnotations.contains kv.1))
    .ok (d, v)

/-- The declared fields of `Iteration`. -/
def iterationFields : List FieldSpec :=
  [req "id", req "name", req "global_id", opt "start_date", opt "end_date",
   strDef "status" "unstarted", opt "description", opt "created_at",
   opt "updated_at", opt "app_url", lst "labels", lst "follower_ids",
   lst "group_ids", lst "mention_ids", lst "member_mention_ids",
   lst "group_mention_ids", lst "label_ids", lst "associated_groups",
   strDef "entity_type" "iteration", opt "stats"]

/-- The date fields converted by `Iteration.from_json`, in source order. -/
def iterationDateFields : List String :=
  ["created_at", "updated_at", "start_date", "end_date"]

/-- Model of `Iteration.from_json`. -/
def iterationFromJson (d : Doc) : Except PyErr (Doc × PyVal) := do
  let d' ← convertDates iterationDateFields d
  let v ← dcCall "Iteration" iterationFields d'
  .ok (d', v)

/-- The declared fields of `ThreadedComment`. -/
def threadedCommentFields : List FieldSpec :=
  [req "id", req "text", req "author_id", req "created_at",
   req "entity_type", opt "app_url", boolDef "deleted" false,
   opt "updated_at", opt "external_id", lst "mention_ids",
   lst "member_mention_ids", lst "group_mention_ids", lst "comments"]

mutual

/-- Model of `ThreadedComment.from_json`: date-string keys are replaced by
parsed timestamps and a present `comments` key by the recursive decode of
each of its elements, with no depth limit; the instance is then
constructed by keyword unpacking.  The source performs three sequential
keyed in-place updates; on a duplicate-free dict that equals this single
keyed pass over the entries. -/
def tcFromJson (v : PyVal) : Except PyErr PyVal :=
  match v with
  | .pdict kvs => do
    let kvs' ← tcEntries kvs
    dcCall "ThreadedComment" threadedCommentFields kvs'
  | _ => .error (.typeError "argument after ** must be a mapping")

/-- The keyed entry pass of `ThreadedComment.from_json`: convert
`created_at`/`updated_at` string values and recursively decode the
`comments` list, leaving every other entry unchanged. -/
def tcEntries (l : List (String × PyVal)) :
    Except PyErr (List (String × PyVal)) :=
  match l with
  | [] => .ok []
  | (k, v) :: rest => do
    let v' ←
      if k = "created_at" ∨ k = "updated_at" then
        match v with
        | .pstr s =>
          match normalizeDT s with
          | some dt => .ok (.pdt dt)
          | none => .error (.valueError s)
        | _ => .ok v
      else if k = "comments" then
        match v with
        | .plist xs => do
          let ys ← tcList xs
          .ok (.plist ys)
        | _ => .error (.typeError "comments is not a list")
      else .ok v
    let rest' ← tcEntries rest
    .ok ((k, v') :: rest')

/-- The list comprehension `[ThreadedComment.from_json(c) for c in
data["comments"]]`. -/
def tcList (xs : List PyVal) : Except PyErr (List PyVal) :=
  match xs with
  | [] => .ok []
  | x :: rest => do
    let y ← tcFromJson x
    let ys ← tcList rest
    .ok (y :: ys)

end

/-- A decoded search-results page, mirroring `SearchStoryResult`
(`data` holds the decoded stories, `next` the optional cursor; the loop in
`_paginate_results` tests the cursor for truthiness, so `None` — and an
empty string — terminate it). -/
structure SearchPage where
  data : List PyVal
  total : PyVal
  next : PyVal

/-- Model of `APIClient._paginate_results`: yield every element of the
current page's `data`; while the page's `next` cursor is truthy, fetch and
decode the following page (the list argument supplies the succession of
decoded responses the transport would return) and continue; stop when the
cursor is absent. -/
def paginateResults (pages : List SearchPage) : List PyVal :=
  match pages with
  | [] => []
  | p :: rest => p.data ++ (if truthy p.next then paginateResults rest else [])

/-- The list comprehension `[item_class.from_json(item) for item in xs]`
for a given item decoder (each item must be a mapping). -/
def decodeItems (itemFJ : Doc → Except PyErr (Doc × PyVal)) :
    List PyVal → Except PyErr (List PyVal)
  | [] => .ok []
  | x :: xs =>
    match x with
    | .pdict kvs => do
      let r ← itemFJ kvs
      let vs ← decodeItems itemFJ xs
      .ok (r.2 :: vs)
    | _ => .error (.typeError "argument after ** must be a mapping")

/-- Model of `PaginatedResponse.from_json`: a bare JSON array is wrapped as
a single page whose `next` and `total` keep their `None` defaults; a
mapping response takes `data` (defaulting to an empty list), `next` and
`total` from the corresponding keys via `.get`. -/
def paginatedFromJson (itemFJ : Doc → Except PyErr (Doc × PyVal))
    (data : PyVal) : Except PyErr PyVal :=
  match data with
  | .plist xs => do
    let vs ← decodeItems itemFJ xs
    .ok (.pobj "PaginatedResponse"
      [("data", .plist vs), ("next", .pnone), ("total", .pnone)])
  | .pdict kvs =>
    match (dget kvs "data").getD (.plist []) with
    | .plist xs => do
      let vs ← decodeItems itemFJ xs
      .ok (.pobj "PaginatedResponse"
        [("data", .plist vs),
         ("next", (dget kvs "next").getD .pnone),
         ("total", (dget kvs "total").getD .pnone)])
    | _ => .error (.typeError "data is not a list")
  | _ => .error (.typeError "response is neither a list nor a mapping")

/-! ### The write path (serialization policy) -/

/-- Model of the request body built by `APIClient.create_story`:
`_clean_dict(story.__dict__)` applied to the input record's field map. -/
def createStoryBody (story : Doc) : Doc :=
  cleanDict story

/-- Access to `x.__dict__` for a dataclass instance. -/
def objDict (x : PyVal) : Except PyErr Doc :=
  match x with
  | .pobj _ fields => .ok fields
  | _ => .error (.typeError "object has no __dict__")

/-- The comprehension `[f(item.__dict__) for item in xs]`, embedding each
sub-record's (possibly transformed) field map as a plain dict. -/
def mapObjDicts (f : Doc → Doc) : List PyVal → Except PyErr (List PyVal)
  | [] => .ok []
  | x :: xs => do
    let fl ← objDict x
    let rest ← mapObjDicts f xs
    .ok (.pdict (f fl) :: rest)

/-- Model of the request body built by `APIClient.create_milestone`: clean
the input's field map, then, when a truthy `categories` value is present,
replace it by the element-wise `_clean_dict(cat.__dict__)`. -/
def createMilestoneBody (m : Doc) : Except PyErr Doc :=
  let rd := cleanDict m
  match dget rd "categories" with
  | some v =>
    if truthy v then
      match v with
      | .plist cs => do
        let cs' ← mapObjDicts cleanDict cs
        .ok (setKey rd "categories" (.plist cs'))
      | _ => .error (.typeError "categories is not a list of records")
    else .ok rd
  | none => .ok rd

/-- Model of the request body built by `APIClient.update_milestone`: clean
the input's field map, then, when a truthy `categories` value is present,
replace it by the element-wise raw `cat.__dict__` (no cleaning of the
sub-records). -/
def updateMilestoneBody (m : Doc) : Except PyErr Doc :=
  let ud := cleanDict m
  match dget ud "categories" with
  | some v =>
    if truthy v then
      match v with
      | .plist cs => do
        let cs' ← mapObjDicts (fun fl => fl) cs
        .ok (setKey ud "categories" (.plist cs'))
      | _ => .error (.typeError "categories is not a list of records")
    else .ok ud
  | none => .ok ud

/-- Model of the request body built by `APIClient.update_custom_field`:
clean the input's field map, then, when a truthy `values` value is
present, replace it by the element-wise cleaned `val.__dict__`. -/
def updateCustomFieldBody (cf : Doc) : Except PyErr Doc :=
  let ud := cleanDict cf
  match dget ud "values" with
  | some v =>
    if truthy v then
      match v with
      | .plist vs => do
        let vs' ← mapObjDicts cleanDict vs
        .ok (setKey ud "values" (.plist vs'))
      | _ => .error (.typeError "values is not a list of records")
    else .ok ud
  | none => .ok ud

/-- Attribute access on a constructed instance (`getattr(v, k)` for a
declared field). -/
def getAttr (v : PyVal) (k : String) : Option PyVal :=
  match v with
  | .pobj _ fields => dget fields k
  | _ => none

/-! ### Basic lemmas about documents and the shared machinery -/

theorem dget_cons (k0 : String) (v0 : PyVal) (rest : Doc) (k : String) :
    dget ((k0, v0) :: rest) k = if k0 = k then some v0 else dget rest k := rfl

theorem setKey_cons (k0 : String) (v0 : PyVal) (rest : Doc) (k : String)
    (v : PyVal) :
    setKey ((k0, v0) :: rest) k v =
      (if k0 = k then (k0, v) else (k0, v0)) :: setKey rest k v := rfl

theorem dget_setKey_self (d : Doc) (k : String) (v : PyVal) :
    dget (setKey d k v) k = (dget d k).map (fun _ => v) := by
  induction d with
  | nil => rfl
  | cons kv rest ih =>
    obtain ⟨k0, v0⟩ := kv
    rw [setKey_cons]
    by_cases h0 : k0 = k
    · rw [if_pos h0, dget_cons, dget_cons, if_pos h0, if_pos h0]
      rfl
    · rw [if_neg h0, dget_cons, dget_cons, if_neg h0, if_neg h0]
      exact ih

theorem dget_setKey_ne (d : Doc) (k k' : String) (v : PyVal) (h : k' ≠ k) :
    dget (setKey d k v) k' = dget d k' := by
  induction d with
  | nil => rfl
  | cons kv rest ih =>
    obtain ⟨k0, v0⟩ := kv
    rw [setKey_cons]
    by_cases h0 : k0 = k
    · have hne : ¬k0 = k' := fun he => h (h0 ▸ he ▸ rfl)
      rw [if_pos h0, dget_cons, dget_cons, if_neg hne, if_neg hne]
      exact ih
    · rw [if_neg h0, dget_cons, dget_cons]
      by_cases h1 : k0 = k'
      · rw [if_pos h1, if_pos h1]
      · rw [if_neg h1, if_neg h1]
        exact ih

theorem hasKey_setKey (d : Doc) (k k' : String) (v : PyVal) :
    hasKey (setKey d k v) k' = hasKey d k' := by
  by_cases h : k' = k
  · subst h
    rw [hasKey, hasKey, dget_setKey_self]
    cases dget d k' <;> rfl
  · rw [hasKey, hasKey, dget_setKey_ne d k k' v h]

theorem convStep_dget_ne (f : String) (d d2 : Doc) (k : String)
    (hstep : convStep f d = .ok d2) (hk : k ≠ f) :
    dget d2 k = dget d k := by
  unfold convStep at hstep
  split at hstep
  · split at hstep
    · cases hstep
      exact dget_setKey_ne d f k _ hk
    · exact Except.noConfusion hstep
  · cases hstep
    rfl

theorem convStep_hasKey (f : String) (d d2 : Doc) (k : String)
    (hstep : convStep f d = .ok d2) :
    hasKey d2 k = hasKey d k := by
  unfold convStep at hstep
  split at hstep
  · split at hstep
    · cases hstep
      exact hasKey_setKey d f k _
    · exact Except.noConfusion hstep
  · cases hstep
    rfl

theorem convertDates_dget_not_mem (fs : List String) (d d2 : Doc)
    (k : String) (hconv : convertDates fs d = .ok d2) (hk : k ∉ fs) :
    dget d2 k = dget d k := by
  induction fs generalizing d with
  | nil => cases hconv; rfl
  | cons f rest ih =>
    unfold convertDates at hconv
    cases hstep : convStep f d with
    | error e =>
      rw [hstep] at hconv
      exact Except.noConfusion hconv
    | ok d1 =>
      rw [hstep] at hconv
      have hconv2 : convertDates rest d1 = .ok d2 := hconv
      have h1 : dget d1 k = dget d k :=
        convStep_dget_ne f d d1 k hstep
          (fun h => hk (h ▸ List.mem_cons_self f rest))
      have h2 : dget d2 k = dget d1 k :=
        ih d1 hconv2 (fun h => hk (List.mem_cons_of_mem f h))
      rw [h2, h1]

theorem convertDates_hasKey (fs : List String) (d d2 : Doc) (k : String)
    (hconv : convertDates fs d = .ok d2) :
    hasKey d2 k = hasKey d k := by
  induction fs generalizing d with
  | nil => cases hconv; rfl
  | cons f rest ih =>
    unfold convertDates at hconv
    cases hstep : convStep f d with
    | error e =>
      rw [hstep] at hconv
      exact Except.noConfusion hconv
    | ok d1 =>
      rw [hstep] at hconv
      have hconv2 : convertDates rest d1 = .ok d2 := hconv
      rw [ih d1 hconv2, convStep_hasKey f d d1 k hstep]

theorem dcCall_ok_shape (cls : String) (specs : List FieldSpec) (d : Doc)
    (v : PyVal) (h : dcCall cls specs d = .ok v) :
    v = .pobj cls (specs.map
      (fun f => (f.name, (dget d f.name).getD (f.default.getD .pnone)))) := by
  unfold dcCall at h
  split at h
  · exact Except.noConfusion h
  · split at h
    · exact (Except.ok.inj h).symm
    · exact Except.noConfusion h

theorem dcCall_error_of_undeclared (cls : String) (specs : List FieldSpec)
    (d : Doc) (k : String) (v : PyVal) (hmem : (k, v) ∈ d)
    (hk : (specs.map FieldSpec.name).contains k = false) :
    ∃ k', dcCall cls specs d = .error (.unexpectedKw cls k') := by
  unfold dcCall
  cases hf : d.find? (fun kv => !(specs.map FieldSpec.name).contains kv.1) with
  | some kv =>
    exact ⟨kv.1, rfl⟩
  | none =>
    rw [List.find?_eq_none] at hf
    have h1 := hf (k, v) hmem
    rw [hk] at h1
    exact absurd rfl h1

theorem dcCall_missing_mem (specs : List FieldSpec) (d : Doc)
    (f : FieldSpec) (hf : f ∈ specs) (hreq : f.default = none)
    (habs : hasKey d f.name = false) :
    f.name ∈ dcMissing specs d := by
  unfold dcMissing
  exact List.mem_map_of_mem FieldSpec.name
    (List.mem_filter.mpr ⟨hf, by rw [hreq, habs]; rfl⟩)

theorem dcCall_error_of_missing (cls : String) (specs : List FieldSpec)
    (d : Doc) (f : FieldSpec) (hall : d.find?
      (fun kv => !(specs.map FieldSpec.name).contains kv.1) = none)
    (hf : f ∈ specs) (hreq : f.default = none)
    (habs : hasKey d f.name = false) :
    dcCall cls specs d = .error (.missingArgs cls (dcMissing specs d)) ∧
      f.name ∈ dcMissing specs d := by
  have hmem := dcCall_missing_mem specs d f hf hreq habs
  have hne : (dcMissing specs d).isEmpty = false := by
    cases hm : dcMissing specs d with
    | nil => rw [hm] at hmem; exact absurd hmem (List.not_mem_nil _)
    | cons a l => rfl
  constructor
  · unfold dcCall
    rw [hall, hne]
    rfl
  · exact hmem

theorem cleanDict_cons_none (k0 : String) (rest : Doc) :
    cleanDict ((k0, PyVal.pnone) :: rest) = cleanDict rest := rfl

theorem cleanDict_cons_keep (k0 : String) (v0 : PyVal) (rest : Doc)
    (h : isNone v0 = false) :
    cleanDict ((k0, v0) :: rest) = (k0, v0) :: cleanDict rest := by
  unfold cleanDict
  rw [List.filter_cons]
  simp [h]

theorem dget_eq_none_of_not_mem_keys (d : Doc) (k : String)
    (h : k ∉ d.map Prod.fst) : dget d k = none := by
  induction d with
  | nil => rfl
  | cons kv rest ih =>
    obtain ⟨k0, v0⟩ := kv
    rw [dget_cons]
    have hne : ¬k0 = k := by
      intro he
      exact h (by rw [List.map_cons, he]; exact List.mem_cons_self k _)
    rw [if_neg hne]
    exact ih (fun hm => h (List.mem_cons_of_mem _ hm))

theorem dget_cleanDict_of_none (d : Doc) (k : String)
    (h : dget d k = none) : dget (cleanDict d) k = none := by
  induction d with
  | nil => rfl
  | cons kv rest ih =>
    obtain ⟨k0, v0⟩ := kv
    rw [dget_cons] at h
    by_cases hk : k0 = k
    · rw [if_pos hk] at h
      exact Option.noConfusion h
    · rw [if_neg hk] at h
      cases hv : isNone v0 with
      | true =>
        cases v0 <;> simp [isNone] at hv
        rw [cleanDict_cons_none]
        exact ih h
      | false =>
        rw [cleanDict_cons_keep k0 v0 rest hv, dget_cons, if_neg hk]
        exact ih h

theorem cleanDict_dget (d : Doc) (hnodup : (d.map Prod.fst).Nodup)
    (k : String) :
    dget (cleanDict d) k =
      (dget d k).bind (fun v => if isNone v then none else some v) := by
  induction d with
  | nil => rfl
  | cons kv rest ih =>
    obtain ⟨k0, v0⟩ := kv
    rw [List.map_cons, List.nodup_cons] at hnodup
    obtain ⟨hk0, hrest⟩ := hnodup
    by_cases hk : k0 = k
    · subst hk
      rw [dget_cons, if_pos rfl]
      cases hv : isNone v0 with
      | true =>
        cases v0 <;> simp [isNone] at hv
        rw [cleanDict_cons_none]
        rw [dget_cleanDict_of_none rest k0
          (dget_eq_none_of_not_mem_keys rest k0 hk0)]
        rfl
      | false =>
        rw [cleanDict_cons_keep k0 v0 rest hv, dget_cons, if_pos rfl]
        simp [hv]
    · cases hv : isNone v0 with
      | true =>
        cases v0 <;> simp [isNone] at hv
        rw [cleanDict_cons_none, dget_cons, if_neg hk]
        exact ih hrest
      | false =>
        rw [cleanDict_cons_keep k0 v0 rest hv, dget_cons, if_neg hk,
          dget_cons, if_neg hk]
        exact ih hrest

theorem cleanDict_dget_ne_none (d : Doc) (k : String) (v : PyVal)
    (h : dget (cleanDict d) k = some v) : isNone v = false := by
  induction d with
  | nil => exact Option.noConfusion h
  | cons kv rest ih =>
    obtain ⟨k0, v0⟩ := kv
    cases hv : isNone v0 with
    | true =>
      cases v0 <;> simp [isNone] at hv
      rw [cleanDict_cons_none] at h
      exact ih h
    | false =>
      rw [cleanDict_cons_keep k0 v0 rest hv, dget_cons] at h
      by_cases hk : k0 = k
      · rw [if_pos hk] at h
        cases Option.some.inj h
        exact hv
      · rw [if_neg hk] at h
        exact ih h

theorem exc_bind_ok {α β : Type} (a : α) (f : α → Except PyErr β) :
    (Except.ok a : Except PyErr α) >>= f = f a := rfl

theorem exc_bind_err {α β : Type} (e : PyErr) (f : α → Except PyErr β) :
    (Except.error e : Except PyErr α) >>= f = Except.error e := rfl

theorem hasKey_of_mem (d : Doc) (k : String) (v : PyVal)
    (h : (k, v) ∈ d) : hasKey d k = true := by
  induction d with
  | nil => exact absurd h (List.not_mem_nil _)
  | cons kv rest ih =>
    obtain ⟨k0, v0⟩ := kv
    rw [hasKey, dget_cons]
    by_cases hk : k0 = k
    · rw [if_pos hk]
      rfl
    · rw [if_neg hk]
      rcases List.mem_cons.mp h with he | hm
      · exact absurd (congrArg Prod.fst he).symm hk
      · exact ih hm

theorem mem_of_dget (d : Doc) (k : String) (v : PyVal)
    (h : dget d k = some v) : (k, v) ∈ d := by
  induction d with
  | nil => exact Option.noConfusion h
  | cons kv rest ih =>
    obtain ⟨k0, v0⟩ := kv
    rw [dget_cons] at h
    by_cases hk : k0 = k
    · rw [if_pos hk] at h
      cases Option.some.inj h
      exact hk ▸ List.mem_cons_self _ _
    · rw [if_neg hk] at h
      exact List.mem_cons_of_mem _ (ih h)

/-! ### Claim C2 -/

/-- C2: for every Input record (an arbitrary duplicate-free field map, as
Python dataclass instances guarantee), the encoded request body of
`create_story` contains exactly the keys whose field value is not the
`None` marker: a `None`-valued field's key is absent (never emitted as
null), every concretely valued field — including `False`, `0` and the
empty list — is emitted with its value unchanged, and no other key
appears. -/
theorem c2_encode_omits_exactly_none (story : Doc)
    (hnodup : (story.map Prod.fst).Nodup) :
    (∀ k, dget story k = some PyVal.pnone →
      dget (createStoryBody story) k = none) ∧
    (∀ k v, dget story k = some v → isNone v = false →
      dget (createStoryBody story) k = some v) ∧
    (∀ k, dget story k = none → dget (createStoryBody story) k = none) := by
  refine ⟨fun k h => ?_, fun k v h hv => ?_, fun k h => ?_⟩
  · rw [createStoryBody, cleanDict_dget story hnodup k, h]
    rfl
  · rw [createStoryBody, cleanDict_dget story hnodup k, h]
    simp [hv]
  · rw [createStoryBody, cleanDict_dget story hnodup k, h]
    rfl

/-- The field map of a `CreateStoryParams`-style input whose caller set
`archived=False`, `estimate=0`, `label_ids=[]` and left `description`
unset. -/
def exC2Story : Doc :=
  [("name", .pstr "Test Story"), ("workflow_state_id", .pint 500000),
   ("description", .pnone), ("archived", .pbool false),
   ("estimate", .pint 0), ("label_ids", .plist [])]

/-- Witness for C2 at a concrete input: the unset optional key is dropped
while the explicit `False`, `0` and `[]` values survive unchanged. -/
theorem c2_encode_omits_exactly_none_witness :
    dget (createStoryBody exC2Story) "description" = none ∧
    dget (createStoryBody exC2Story) "archived" = some (.pbool false) ∧
    dget (createStoryBody exC2Story) "estimate" = some (.pint 0) ∧
    dget (createStoryBody exC2Story) "label_ids" = some (.plist []) ∧
    dget (createStoryBody exC2Story) "name" = some (.pstr "Test Story") := by
  have hnodup : (exC2Story.map Prod.fst).Nodup := by
    simp [exC2Story]
  have h := c2_encode_omits_exactly_none exC2Story hnodup
  exact ⟨h.1 "description" rfl,
    h.2.1 "archived" _ rfl rfl,
    h.2.1 "estimate" _ rfl rfl,
    h.2.1 "label_ids" _ rfl rfl,
    h.2.1 "name" _ rfl rfl⟩

/-! ### Claim C10 -/

/-- C10: when the raw response passed to `PaginatedResponse.from_json` is a
bare JSON array whose items all decode, the decode succeeds and wraps the
array as a single page: `data` is the element-wise decode of the array in
order, and both the `next` cursor and the `total` count keep their `None`
defaults. -/
theorem c10_bare_array_single_page
    (itemFJ : Doc → Except PyErr (Doc × PyVal)) (xs vs : List PyVal)
    (h : decodeItems itemFJ xs = .ok vs) :
    paginatedFromJson itemFJ (.plist xs) =
      .ok (.pobj "PaginatedResponse"
        [("data", .plist vs), ("next", .pnone), ("total", .pnone)]) := by
  show decodeItems itemFJ xs >>= (fun ws => Except.ok (PyVal.pobj
      "PaginatedResponse"
      [("data", PyVal.plist ws), ("next", PyVal.pnone),
       ("total", PyVal.pnone)])) =
    Except.ok (PyVal.pobj "PaginatedResponse"
      [("data", PyVal.plist vs), ("next", PyVal.pnone),
       ("total", PyVal.pnone)])
  rw [h, exc_bind_ok]

/-- A two-element bare-array response of member documents. -/
def exC10Array : List PyVal :=
  [.pdict [("id", .pstr "u1")], .pdict [("id", .pstr "u2")]]

/-- Witness for C10 at a concrete bare array of two member documents. -/
theorem c10_bare_array_single_page_witness :
    paginatedFromJson memberFromJson (.plist exC10Array) =
      .ok (.pobj "PaginatedResponse"
        [("data", .plist
          [.pobj "Member"
            [("id", .pstr "u1"), ("state", .pnone),
             ("entity_type", .pstr "member"), ("global_id", .pnone),
             ("profile", .pnone), ("role", .pnone), ("disabled", .pnone),
             ("mention_name", .pnone), ("created_at", .pnone),
             ("updated_at", .pnone)],
           .pobj "Member"
            [("id", .pstr "u2"), ("state", .pnone),
             ("entity_type", .pstr "member"), ("global_id", .pnone),
             ("profile", .pnone), ("role", .pnone), ("disabled", .pnone),
             ("mention_name", .pnone), ("created_at", .pnone),
             ("updated_at", .pnone)]]),
         ("next", .pnone), ("total", .pnone)]) :=
  c10_bare_array_single_page memberFromJson exC10Array _ rfl

/-! ### Claim C5 -/

/-- C5: for every finite sequence of decoded page responses in which every
page but the last carries a (truthy) `next` cursor and the last page's
cursor is absent, consuming `_paginate_results` yields exactly the
concatenation of the pages' `data` lists, in page order and within-page
order, and terminates with the cursorless page: any further responses the
transport could serve (`junk`) are never requested. -/
theorem c5_pagination_concat_and_stop (mid : List SearchPage)
    (last : SearchPage) (junk : List SearchPage)
    (hmid : ∀ p ∈ mid, truthy p.next = true)
    (hlast : last.next = PyVal.pnone) :
    paginateResults ((mid ++ [last]) ++ junk) =
      ((mid ++ [last]).map SearchPage.data).flatten := by
  induction mid with
  | nil =>
    show last.data ++ (if truthy last.next then paginateResults junk else []) =
      ([last].map SearchPage.data).flatten
    rw [hlast]
    simp [truthy]
  | cons p rest ih =>
    have hp : truthy p.next = true := hmid p (List.mem_cons_self p rest)
    show p.data ++
        (if truthy p.next then paginateResults ((rest ++ [last]) ++ junk)
         else []) =
      (((p :: rest) ++ [last]).map SearchPage.data).flatten
    rw [hp, if_pos rfl,
      ih (fun x hx => hmid x (List.mem_cons_of_mem p hx))]
    simp

/-- Three concrete pages (only the first two carry a cursor) plus a junk
page the client must never reach. -/
def exC5Pages : List SearchPage :=
  [⟨[.pint 1, .pint 2], .pint 3, .pstr "/search/stories?next=a"⟩,
   ⟨[.pint 3], .pint 3, .pstr "/search/stories?next=b"⟩]

/-- The cursorless final page for the C5 witness. -/
def exC5Last : SearchPage := ⟨[.pint 4], .pint 3, .pnone⟩

/-- A junk page that must never be consumed. -/
def exC5Junk : List SearchPage := [⟨[.pint 99], .pint 1, .pnone⟩]

/-- Witness for C5: three pages concatenate in order and the trailing junk
response is never consumed. -/
theorem c5_pagination_concat_and_stop_witness :
    paginateResults ((exC5Pages ++ [exC5Last]) ++ exC5Junk) =
      [.pint 1, .pint 2, .pint 3, .pint 4] := by
  have h := c5_pagination_concat_and_stop exC5Pages exC5Last exC5Junk
    (by intro p hp
        simp only [exC5Pages, List.mem_cons] at hp
        rcases hp with h1 | h1 | h1
        · rw [h1]; rfl
        · rw [h1]; rfl
        · exact absurd h1 (List.not_mem_nil p))
    rfl
  rw [h]
  rfl

/-! ### Claim C3 -/

/-- C3: decoding a `Task` document that omits the declared-required
`description` field (while containing only declared keys, with its date
values convertible) fails with the `TypeError` of dataclass keyword
unpacking — the `SchemaViolation`-class condition of this code base —
whose payload names the target record type `Task` and contains the missing
field `description`; the field is never silently defaulted, since the
decode returns no value at all. -/
theorem c3_missing_required_fails (d d2 : Doc)
    (hconv : convertDates taskDateFields d = .ok d2)
    (hdecl : ∀ kv ∈ d, (taskFields.map FieldSpec.name).contains kv.1 = true)
    (habs : hasKey d "description" = false) :
    taskFromJson d =
      .error (.missingArgs "Task" (dcMissing taskFields d2)) ∧
    "description" ∈ dcMissing taskFields d2 := by
  have hkeys : ∀ kv ∈ d2, (taskFields.map FieldSpec.name).contains kv.1 =
      true := by
    intro kv hkv
    have h1 : hasKey d2 kv.1 = true := hasKey_of_mem d2 kv.1 kv.2 hkv
    rw [convertDates_hasKey taskDateFields d d2 kv.1 hconv] at h1
    rw [hasKey] at h1
    cases hget : dget d kv.1 with
    | none => rw [hget] at h1; exact Bool.noConfusion h1
    | some w => exact hdecl (kv.1, w) (mem_of_dget d kv.1 w hget)
  have hall : d2.find?
      (fun kv => !(taskFields.map FieldSpec.name).contains kv.1) = none := by
    rw [List.find?_eq_none]
    intro x hx
    rw [hkeys x hx]
    exact fun h => Bool.noConfusion h
  have habs2 : hasKey d2 "description" = false := by
    rw [convertDates_hasKey taskDateFields d d2 _ hconv]
    exact habs
  have hdesc : (⟨"description", none⟩ : FieldSpec) ∈ taskFields :=
    List.mem_cons_of_mem _ (List.mem_cons_self _ _)
  obtain ⟨herr, hmem⟩ := dcCall_error_of_missing "Task" taskFields d2
    ⟨"description", none⟩ hall hdesc rfl habs2
  constructor
  · show convertDates taskDateFields d >>=
      (fun d' => dcCall "Task" taskFields d' >>= fun v => .ok (d', v)) = _
    rw [hconv, exc_bind_ok, herr, exc_bind_err]
  · exact hmem

/-- A task document with every required field except `description`. -/
def exC3Task : Doc :=
  [("id", .pint 1), ("complete", .pbool true), ("story_id", .pint 2),
   ("entity_type", .pstr "task"), ("position", .pint 0),
   ("created_at", .pstr "2023-01-01T00:00:00Z")]

/-- Witness for C3 at a concrete document: decoding fails with an error
naming `Task` and listing exactly the missing `description`. -/
theorem c3_missing_required_fails_witness :
    taskFromJson exC3Task = .error (.missingArgs "Task" ["description"]) ∧
    "description" ∈ ["description"] := by
  have h := c3_missing_required_fails exC3Task
    [("id", .pint 1), ("complete", .pbool true), ("story_id", .pint 2),
     ("entity_type", .pstr "task"), ("position", .pint 0),
     ("created_at", .pdt ⟨2023, 1, 1, 0, 0, 0, some 0⟩)]
    rfl (by decide) rfl
  exact ⟨h.1, h.2⟩

/-! ### Claim C1 -/

/-- Unfolding equation of `Member.from_json` when the document has a
`profile` key. -/
theorem memberFromJson_profile_some (d : Doc) (pv : PyVal)
    (h : dget d "profile" = some pv) :
    memberFromJson d =
      profileFromJson pv >>= (fun prof =>
        dcCall "Member" memberFields
          ((setKey d "profile" prof).filter
            (fun kv => memberAnnotations.contains kv.1)) >>= (fun v =>
        Except.ok (setKey d "profile" prof, v))) := by
  unfold memberFromJson
  rw [h]

/-- Unfolding equation of `Member.from_json` when the document has no
`profile` key. -/
theorem memberFromJson_profile_none (d : Doc)
    (h : dget d "profile" = none) :
    memberFromJson d =
      dcCall "Member" memberFields
        (d.filter (fun kv => memberAnnotations.contains kv.1)) >>= (fun v =>
      Except.ok (d, v)) := by
  unfold memberFromJson
  rw [h]

/-- A raw story document containing every declared `Story` field (the
required `name` bound to a string, every defaulted field bound to its
default) plus one undeclared key. -/
def exC1StoryDoc : Doc :=
  storyFields.map (fun f => (f.name, f.default.getD (.pstr "x"))) ++
    [("extra_key", .pint 1)]

/-- Counterexample to C1: this document contains all declared `Story`
fields plus the undeclared key `extra_key`, yet `Story.from_json` does not
succeed — keyword unpacking raises the unexpected-keyword `TypeError` for
the extra key. -/
theorem c1_counterexample_extra_key_raises :
    exC1StoryDoc.map Prod.fst =
      storyFields.map FieldSpec.name ++ ["extra_key"] ∧
    storyFromJson exC1StoryDoc =
      .error (.unexpectedKw "Story" "extra_key") := by
  constructor
  · rfl
  · rfl

/-- Undeclared keys are dropped by `Member.from_json`, which restricts the
document to `Member.__annotations__` before unpacking: prepending any
undeclared key leaves the decoded value unchanged. -/
theorem member_extra_key_ignored (k : String) (v : PyVal) (rest : Doc)
    (hk : memberAnnotations.contains k = false) :
    (memberFromJson ((k, v) :: rest)).map Prod.snd =
      (memberFromJson rest).map Prod.snd := by
  have hkp : ¬ k = "profile" := by
    intro he
    rw [he] at hk
    exact Bool.noConfusion hk
  have hnotkey : ¬ ((fun kv : String × PyVal =>
      memberAnnotations.contains kv.1) (k, v) = true) := by
    intro h
    have h2 : memberAnnotations.contains k = true := h
    rw [hk] at h2
    exact Bool.noConfusion h2
  have hfil : ((k, v) :: rest).filter
      (fun kv => memberAnnotations.contains kv.1) =
      rest.filter (fun kv => memberAnnotations.contains kv.1) := by
    rw [List.filter_cons, if_neg hnotkey]
  cases hp : dget rest "profile" with
  | none =>
    rw [memberFromJson_profile_none ((k, v) :: rest)
        (by rw [dget_cons, if_neg hkp]; exact hp),
      memberFromJson_profile_none rest hp, hfil]
    cases dcCall "Member" memberFields
      (rest.filter (fun kv => memberAnnotations.contains kv.1)) <;> rfl
  | some pv =>
    rw [memberFromJson_profile_some ((k, v) :: rest) pv
        (by rw [dget_cons, if_neg hkp]; exact hp),
      memberFromJson_profile_some rest pv hp]
    cases hprof : profileFromJson pv with
    | error e => rfl
    | ok prof =>
      have harg : (setKey ((k, v) :: rest) "profile" prof).filter
          (fun kv => memberAnnotations.contains kv.1) =
          (setKey rest "profile" prof).filter
          (fun kv => memberAnnotations.contains kv.1) := by
        rw [setKey_cons, if_neg hkp, List.filter_cons, if_neg hnotkey]
      rw [exc_bind_ok, exc_bind_ok, harg]
      cases dcCall "Member" memberFields
        ((setKey rest "profile" prof).filter
          (fun kv => memberAnnotations.contains kv.1)) <;> rfl

/-- For `Story`, whose `from_json` unpacks the raw document directly, any
undeclared key in the document makes decoding fail. -/
theorem story_undeclared_key_fails (d : Doc) (k : String) (v : PyVal)
    (hmem : (k, v) ∈ d)
    (hk : (storyFields.map FieldSpec.name).contains k = false) :
    ∃ e, storyFromJson d = .error e := by
  cases hconv : convertDates storyDateFields d with
  | error e =>
    refine ⟨e, ?_⟩
    show convertDates storyDateFields d >>=
      (fun d' => dcCall "Story" storyFields d' >>= fun w => .ok (d', w)) = _
    rw [hconv, exc_bind_err]
  | ok d2 =>
    have h1 : hasKey d2 k = true := by
      rw [convertDates_hasKey storyDateFields d d2 k hconv]
      exact hasKey_of_mem d k v hmem
    rw [hasKey] at h1
    cases hget : dget d2 k with
    | none => rw [hget] at h1; exact Bool.noConfusion h1
    | some w =>
      obtain ⟨k', hk'⟩ := dcCall_error_of_undeclared "Story" storyFields d2
        k w (mem_of_dget d2 k w hget) hk
      refine ⟨.unexpectedKw "Story" k', ?_⟩
      show convertDates storyDateFields d >>=
        (fun d' => dcCall "Story" storyFields d' >>= fun w => .ok (d', w)) = _
      rw [hconv, exc_bind_ok, hk', exc_bind_err]

/-- C1 amended: unknown-key tolerance holds only for record types whose
`from_json` restricts the document to the declared fields before
unpacking (`Member`): there an undeclared key is ignored and absent from
the result.  For types that unpack the raw document directly (`Story`),
any undeclared key makes decoding fail instead of being ignored. -/
theorem c1_amended_extra_keys (k : String) (v : PyVal) (rest : Doc)
    (d : Doc) (ks : String) (vs : PyVal)
    (hk : memberAnnotations.contains k = false)
    (hmem : (ks, vs) ∈ d)
    (hks : (storyFields.map FieldSpec.name).contains ks = false) :
    (memberFromJson ((k, v) :: rest)).map Prod.snd =
      (memberFromJson rest).map Prod.snd ∧
    ∃ e, storyFromJson d = .error e :=
  ⟨member_extra_key_ignored k v rest hk,
   story_undeclared_key_fails d ks vs hmem hks⟩

/-- Witness for the amended C1: the stray `group_ids` key of the fixture
member document is ignored by `Member.from_json`, while the same stray key
makes `Story.from_json` fail. -/
theorem c1_amended_extra_keys_witness :
    (memberFromJson [("group_ids", .plist []), ("id", .pstr "u1")]).map
        Prod.snd =
      (memberFromJson [("id", .pstr "u1")]).map Prod.snd ∧
    ∃ e, storyFromJson
      [("name", .pstr "s"), ("group_ids", .plist [])] = .error e :=
  c1_amended_extra_keys "group_ids" (.plist [])
    [("id", .pstr "u1")]
    [("name", .pstr "s"), ("group_ids", .plist [])]
    "group_ids" (.plist []) rfl
    (List.mem_cons_of_mem _ (List.mem_cons_self _ _)) rfl

/-! ### Claim C4 -/

/-- A two-level threaded-comment document (root holding one nested comment
whose own `comments` list is empty). -/
def exC4Doc : PyVal :=
  .pdict
    [("id", .pint 1), ("text", .pstr "root"), ("author_id", .pstr "a"),
     ("created_at", .pstr "2023-01-01T00:00:00Z"),
     ("entity_type", .pstr "threaded-comment"),
     ("comments", .plist
       [.pdict
         [("id", .pint 2), ("text", .pstr "leaf"),
          ("author_id", .pstr "b"),
          ("created_at", .pstr "2023-01-02T00:00:00Z"),
          ("entity_type", .pstr "threaded-comment"),
          ("comments", .plist [])]])]

/-- The decoded tree for `exC4Doc`: a typed root whose `comments` holds the
typed leaf, whose own `comments` is the empty sequence. -/
def exC4Result : PyVal :=
  .pobj "ThreadedComment"
    [("id", .pint 1), ("text", .pstr "root"), ("author_id", .pstr "a"),
     ("created_at", .pdt ⟨2023, 1, 1, 0, 0, 0, some 0⟩),
     ("entity_type", .pstr "threaded-comment"),
     ("app_url", .pnone), ("deleted", .pbool false),
     ("updated_at", .pnone), ("external_id", .pnone),
     ("mention_ids", .plist []), ("member_mention_ids", .plist []),
     ("group_mention_ids", .plist []),
     ("comments", .plist
       [.pobj "ThreadedComment"
         [("id", .pint 2), ("text", .pstr "leaf"),
          ("author_id", .pstr "b"),
          ("created_at", .pdt ⟨2023, 1, 2, 0, 0, 0, some 0⟩),
          ("entity_type", .pstr "threaded-comment"),
          ("app_url", .pnone), ("deleted", .pbool false),
          ("updated_at", .pnone), ("external_id", .pnone),
          ("mention_ids", .plist []), ("member_mention_ids", .plist []),
          ("group_mention_ids", .plist []), ("comments", .plist [])]])]

/-- C4: when a `ThreadedComment` document carries a `comments` key, each
element is hydrated by the recursive decode itself (whatever list of typed
values it produces), with no depth limit; and concretely, decoding the
two-level document `exC4Doc` yields a typed tree of depth 2 whose leaf's
`comments` field is the empty sequence. -/
theorem c4_nested_recursive_hydration :
    (∀ (idv tv av ev : PyVal) (dt0 : DT) (xs ys : List PyVal),
      tcList xs = .ok ys →
      tcFromJson (.pdict
        [("id", idv), ("text", tv), ("author_id", av),
         ("created_at", .pdt dt0), ("entity_type", ev),
         ("comments", .plist xs)]) =
        .ok (.pobj "ThreadedComment"
          [("id", idv), ("text", tv), ("author_id", av),
           ("created_at", .pdt dt0), ("entity_type", ev),
           ("app_url", .pnone), ("deleted", .pbool false),
           ("updated_at", .pnone), ("external_id", .pnone),
           ("mention_ids", .plist []), ("member_mention_ids", .plist []),
           ("group_mention_ids", .plist []),
           ("comments", .plist ys)])) ∧
    tcFromJson exC4Doc = .ok exC4Result := by
  constructor
  · intro idv tv av ev dt0 xs ys hys
    simp only [tcFromJson, tcEntries, hys, exc_bind_ok]
    rfl
  · rfl

/-- Witness for C4: the general nested-hydration equation applied to the
singleton two-level comment list, whose recursive decode is evaluated
explicitly. -/
theorem c4_nested_recursive_hydration_witness :
    tcFromJson (.pdict
      [("id", .pint 7), ("text", .pstr "top"), ("author_id", .pstr "c"),
       ("created_at", .pdt ⟨2024, 2, 3, 4, 5, 6, some 0⟩),
       ("entity_type", .pstr "threaded-comment"),
       ("comments", .plist
         [.pdict
           [("id", .pint 8), ("text", .pstr "child"),
            ("author_id", .pstr "d"),
            ("created_at", .pdt ⟨2024, 2, 4, 0, 0, 0, some 0⟩),
            ("entity_type", .pstr "threaded-comment"),
            ("comments", .plist [])]])]) =
      .ok (.pobj "ThreadedComment"
        [("id", .pint 7), ("text", .pstr "top"), ("author_id", .pstr "c"),
         ("created_at", .pdt ⟨2024, 2, 3, 4, 5, 6, some 0⟩),
         ("entity_type", .pstr "threaded-comment"),
         ("app_url", .pnone), ("deleted", .pbool false),
         ("updated_at", .pnone), ("external_id", .pnone),
         ("mention_ids", .plist []), ("member_mention_ids", .plist []),
         ("group_mention_ids", .plist []),
         ("comments", .plist
           [.pobj "ThreadedComment"
             [("id", .pint 8), ("text", .pstr "child"),
              ("author_id", .pstr "d"),
              ("created_at", .pdt ⟨2024, 2, 4, 0, 0, 0, some 0⟩),
              ("entity_type", .pstr "threaded-comment"),
              ("app_url", .pnone), ("deleted", .pbool false),
              ("updated_at", .pnone), ("external_id", .pnone),
              ("mention_ids", .plist []), ("member_mention_ids", .plist []),
              ("group_mention_ids", .plist []),
              ("comments", .plist [])]])]) :=
  c4_nested_recursive_hydration.1 (.pint 7) (.pstr "top") (.pstr "c")
    (.pstr "threaded-comment") ⟨2024, 2, 3, 4, 5, 6, some 0⟩ _ _ rfl

/-! ### Claim C6 -/

/-- A story document whose `created_at` value is a date string. -/
def exC6Doc : Doc :=
  [("name", .pstr "x"), ("created_at", .pstr "2023-01-01T00:00:00Z")]

/-- The state of `exC6Doc` after `Story.from_json` returns: the date
string has been overwritten in place by the parsed timestamp. -/
def exC6Post : Doc :=
  [("name", .pstr "x"), ("created_at", .pdt ⟨2023, 1, 1, 0, 0, 0, some 0⟩)]

/-- Counterexample to C6: `Story.from_json` is not pure — decoding
`exC6Doc` succeeds but updates the input document in place, so the
`created_at` key no longer maps to the value it held before the call. -/
theorem c6_counterexample_decode_mutates_input :
    (storyFromJson exC6Doc).map Prod.fst = .ok exC6Post ∧
    dget exC6Doc "created_at" = some (.pstr "2023-01-01T00:00:00Z") ∧
    dget exC6Post "created_at" =
      some (.pdt ⟨2023, 1, 1, 0, 0, 0, some 0⟩) ∧
    dget exC6Post "created_at" ≠ dget exC6Doc "created_at" := by
  refine ⟨rfl, rfl, rfl, ?_⟩
  intro h
  rw [show dget exC6Post "created_at" =
      some (.pdt ⟨2023, 1, 1, 0, 0, 0, some 0⟩) from rfl,
    show dget exC6Doc "created_at" =
      some (.pstr "2023-01-01T00:00:00Z") from rfl] at h
  exact PyVal.noConfusion (Option.some.inj h)

/-- C6 amended: `Story.from_json` returns a freshly constructed value (or
fails) but mutates the input document in place, replacing date-field
string values by parsed timestamps; every key outside the eight converted
date fields still maps to its original value after the call. -/
theorem c6_amended_mutation_frame (d post : Doc) (v : PyVal)
    (h : storyFromJson d = .ok (post, v)) :
    ∀ k, k ∉ storyDateFields → dget post k = dget d k := by
  intro k hk
  cases hconv : convertDates storyDateFields d with
  | error e =>
    have habs : storyFromJson d = .error e := by
      show convertDates storyDateFields d >>=
        (fun d' => dcCall "Story" storyFields d' >>= fun w => .ok (d', w)) = _
      rw [hconv, exc_bind_err]
    rw [habs] at h
    exact Except.noConfusion h
  | ok d2 =>
    have hsf : storyFromJson d =
        dcCall "Story" storyFields d2 >>= fun w => .ok (d2, w) := by
      show convertDates storyDateFields d >>=
        (fun d' => dcCall "Story" storyFields d' >>= fun w => .ok (d', w)) = _
      rw [hconv, exc_bind_ok]
    rw [hsf] at h
    cases hdc : dcCall "Story" storyFields d2 with
    | error e =>
      rw [hdc, exc_bind_err] at h
      exact Except.noConfusion h
    | ok w =>
      rw [hdc, exc_bind_ok] at h
      have hpair : (d2, w) = (post, v) := Except.ok.inj h
      have hpost : d2 = post := congrArg Prod.fst hpair
      rw [← hpost]
      exact convertDates_dget_not_mem storyDateFields d d2 k hconv hk

/-- Witness for the amended C6 at `exC6Doc`: the non-date key `name` is
untouched by the in-place conversion. -/
theorem c6_amended_mutation_frame_witness :
    dget exC6Post "name" = dget exC6Doc "name" :=
  c6_amended_mutation_frame exC6Doc exC6Post _ rfl "name" (by decide)

/-! ### Claim C7 -/

/-- Test whether a declared default is the `None` marker. -/
def isNoneDefault : Option PyVal → Bool
  | some .pnone => true
  | _ => false

theorem isNoneDefault_eq (o : Option PyVal) (h : isNoneDefault o = true) :
    o = some .pnone := by
  cases o with
  | none => exact Bool.noConfusion h
  | some v => cases v <;> first | rfl | exact Bool.noConfusion h

/-- Prepending an explicit `None` binding for a declared field whose
default is the `None` marker does not change the result of keyword
unpacking, provided the rest of the document does not bind the key. -/
theorem dcCall_cons_none_default (cls : String) (specs : List FieldSpec)
    (k : String) (d : Doc)
    (hdecl : (specs.map FieldSpec.name).contains k = true)
    (hdef : specs.all
      (fun f => !(f.name == k) || isNoneDefault f.default) = true)
    (hno : dget d k = none) :
    dcCall cls specs ((k, .pnone) :: d) = dcCall cls specs d := by
  have hdef' : ∀ f ∈ specs, f.name = k → f.default = some .pnone := by
    intro f hf hname
    have h1 := List.all_eq_true.mp hdef f hf
    rw [hname] at h1
    simp only [beq_self_eq_true, Bool.not_true, Bool.false_or] at h1
    exact isNoneDefault_eq f.default h1
  have hpa : ¬ ((fun kv : String × PyVal =>
      !(specs.map FieldSpec.name).contains kv.1) (k, PyVal.pnone) = true) := by
    intro hcontra
    have h2 : (!((specs.map FieldSpec.name).contains k)) = true := hcontra
    rw [hdecl] at h2
    exact Bool.noConfusion h2
  have hfind : List.find?
      (fun kv : String × PyVal => !(specs.map FieldSpec.name).contains kv.1)
      ((k, .pnone) :: d) =
      List.find?
      (fun kv : String × PyVal => !(specs.map FieldSpec.name).contains kv.1)
      d :=
    List.find?_cons_of_neg d hpa
  have hmiss : dcMissing specs ((k, .pnone) :: d) = dcMissing specs d := by
    unfold dcMissing
    refine congrArg (List.map FieldSpec.name) (List.filter_congr ?_)
    intro f hf
    by_cases hname : k = f.name
    · have hdefk : f.default = some .pnone := hdef' f hf hname.symm
      rw [hdefk]
      rfl
    · have h3 : hasKey ((k, .pnone) :: d) f.name = hasKey d f.name := by
        rw [hasKey, hasKey, dget_cons, if_neg hname]
      rw [h3]
  have hvals : specs.map
      (fun f => (f.name,
        (dget ((k, .pnone) :: d) f.name).getD (f.default.getD .pnone))) =
      specs.map
      (fun f => (f.name, (dget d f.name).getD (f.default.getD .pnone))) := by
    refine List.map_congr_left ?_
    intro f hf
    by_cases hname : k = f.name
    · have hdefk : f.default = some .pnone := hdef' f hf hname.symm
      rw [dget_cons, if_pos hname, hdefk, ← hname, hno]
      rfl
    · rw [dget_cons, if_neg hname]
  unfold dcCall
  rw [hfind, hmiss, hvals]

/-- One date-conversion step commutes with an explicitly prepended binding
for a different key. -/
theorem convStep_cons_ne (f k : String) (v0 : PyVal) (d : Doc)
    (hk : ¬ k = f) :
    convStep f ((k, v0) :: d) =
      (convStep f d).map (fun d2 => (k, v0) :: d2) := by
  unfold convStep
  rw [dget_cons, if_neg hk]
  cases dget d f with
  | none => rfl
  | some v =>
    cases v with
    | pstr s =>
      show (match normalizeDT s with
          | some dt => Except.ok (setKey ((k, v0) :: d) f (PyVal.pdt dt))
          | none =>
            (Except.error (PyErr.valueError s) : Except PyErr Doc)) =
        Except.map (fun d2 => (k, v0) :: d2)
          (match normalizeDT s with
           | some dt => Except.ok (setKey d f (PyVal.pdt dt))
           | none =>
             (Except.error (PyErr.valueError s) : Except PyErr Doc))
      cases normalizeDT s with
      | some dt =>
        show Except.ok (setKey ((k, v0) :: d) f (PyVal.pdt dt)) =
          Except.map (fun d2 => (k, v0) :: d2)
            (Except.ok (setKey d f (PyVal.pdt dt)))
        rw [setKey_cons, if_neg hk]
        rfl
      | none => rfl
    | pnone => rfl
    | pbool b => rfl
    | pint n => rfl
    | pdt x => rfl
    | plist xs => rfl
    | pdict kvs => rfl
    | pobj c fl => rfl

/-- Date conversion commutes with an explicitly prepended binding for a
key that is not converted. -/
theorem convertDates_cons_notmem (fs : List String) (k : String)
    (v0 : PyVal) (d : Doc) (hk : k ∉ fs) :
    convertDates fs ((k, v0) :: d) =
      (convertDates fs d).map (fun d2 => (k, v0) :: d2) := by
  induction fs generalizing d with
  | nil => rfl
  | cons f rest ih =>
    have hkf : ¬ k = f := fun h => hk (h ▸ List.mem_cons_self f rest)
    show convStep f ((k, v0) :: d) >>= convertDates rest =
      Except.map (fun d2 => (k, v0) :: d2)
        (convStep f d >>= convertDates rest)
    rw [convStep_cons_ne f k v0 d hkf]
    cases hstep : convStep f d with
    | error e => rfl
    | ok d1 =>
      show convertDates rest ((k, v0) :: d1) =
        Except.map (fun d2 => (k, v0) :: d2) (convertDates rest d1)
      exact ih d1 (fun h => hk (List.mem_cons_of_mem f h))

/-- A raw member document binding `profile` explicitly to null. -/
def exC7MemberNull : Doc := [("id", .pstr "u1"), ("profile", .pnone)]

/-- The same member document with the `profile` key omitted. -/
def exC7MemberOmit : Doc := [("id", .pstr "u1")]

/-- Counterexample to C7: a member document whose optional `profile` key is
present with a null value does not decode like the document with the key
omitted — the null is fed to `Profile.from_json`, whose keyword unpacking
raises `TypeError`, while the key-omitted document decodes fine. -/
theorem c7_counterexample_null_profile_raises :
    memberFromJson exC7MemberNull =
      .error (.typeError "argument after ** must be a mapping") ∧
    memberFromJson exC7MemberOmit =
      .ok (exC7MemberOmit,
        .pobj "Member"
          [("id", .pstr "u1"), ("state", .pnone),
           ("entity_type", .pstr "member"), ("global_id", .pnone),
           ("profile", .pnone), ("role", .pnone), ("disabled", .pnone),
           ("mention_name", .pnone), ("created_at", .pnone),
           ("updated_at", .pnone)]) :=
  ⟨rfl, rfl⟩

/-- C7 amended: null-or-omitted equivalence holds for optional fields whose
declared default is the `None` marker and whose decode does not recurse
into them (here `Story.description`): binding such a field explicitly to
null decodes to the same value as omitting it.  It fails in general: a
null nested-record field (`Member.profile`) raises, and fields with
non-`None` defaults (empty-list or literal defaults) take the marker
instead of their default when null is present. -/
theorem c7_amended_null_vs_omitted (rest : Doc)
    (hno : dget rest "description" = none) :
    (storyFromJson (("description", .pnone) :: rest)).map Prod.snd =
      (storyFromJson rest).map Prod.snd := by
  have hnotdate : "description" ∉ storyDateFields := by decide
  show (convertDates storyDateFields (("description", .pnone) :: rest) >>=
      (fun d' => dcCall "Story" storyFields d' >>=
        fun w => Except.ok (d', w))).map Prod.snd =
    (convertDates storyDateFields rest >>=
      (fun d' => dcCall "Story" storyFields d' >>=
        fun w => Except.ok (d', w))).map Prod.snd
  rw [convertDates_cons_notmem storyDateFields "description" .pnone rest
    hnotdate]
  cases hconv : convertDates storyDateFields rest with
  | error e => rfl
  | ok d2 =>
    have hno2 : dget d2 "description" = none := by
      rw [convertDates_dget_not_mem storyDateFields rest d2 "description"
        hconv hnotdate]
      exact hno
    show (dcCall "Story" storyFields (("description", .pnone) :: d2) >>=
        (fun w => Except.ok (("description", .pnone) :: d2, w))).map
        Prod.snd =
      (dcCall "Story" storyFields d2 >>=
        (fun w => Except.ok (d2, w))).map Prod.snd
    rw [dcCall_cons_none_default "Story" storyFields "description" d2 rfl
      rfl hno2]
    cases dcCall "Story" storyFields d2 <;> rfl

/-- Witness for the amended C7: decoding with `description` null equals
decoding with it omitted on a minimal story document. -/
theorem c7_amended_null_vs_omitted_witness :
    (storyFromJson [("description", .pnone), ("name", .pstr "s")]).map
        Prod.snd =
      (storyFromJson [("name", .pstr "s")]).map Prod.snd :=
  c7_amended_null_vs_omitted [("name", .pstr "s")] rfl

/-! ### Claim C8 -/

/-- When a converted date field holds a string, a successful conversion of
the field list (the field listed once, between fields distinct from it)
stores exactly the temporal normalizer's output for that string. -/
theorem convertDates_converts_str (pre post : List String) (f : String)
    (d d2 : Doc) (s : String) (hpre : f ∉ pre) (hpost : f ∉ post)
    (hconv : convertDates (pre ++ f :: post) d = .ok d2)
    (hs : dget d f = some (.pstr s)) :
    ∃ dt, normalizeDT s = some dt ∧ dget d2 f = some (.pdt dt) := by
  induction pre generalizing d with
  | nil =>
    have hstep : convStep f d = (match normalizeDT s with
        | some dt => Except.ok (setKey d f (PyVal.pdt dt))
        | none => (Except.error (PyErr.valueError s) : Except PyErr Doc)) := by
      unfold convStep
      rw [hs]
    rw [List.nil_append] at hconv
    have hconv2 : convStep f d >>= convertDates post = .ok d2 := hconv
    cases hn : normalizeDT s with
    | none =>
      rw [hn] at hstep
      rw [hstep, exc_bind_err] at hconv2
      exact Except.noConfusion hconv2
    | some dt =>
      rw [hn] at hstep
      rw [hstep, exc_bind_ok] at hconv2
      refine ⟨dt, rfl, ?_⟩
      rw [convertDates_dget_not_mem post (setKey d f (.pdt dt)) d2 f hconv2
        hpost, dget_setKey_self, hs]
      rfl
  | cons g pre2 ih =>
    have hgf : ¬ g = f := fun h => hpre (h ▸ List.mem_cons_self g pre2)
    have hconv2 : convStep g d >>= convertDates (pre2 ++ f :: post) =
        .ok d2 := hconv
    cases hstep : convStep g d with
    | error e =>
      rw [hstep, exc_bind_err] at hconv2
      exact Except.noConfusion hconv2
    | ok d1 =>
      rw [hstep, exc_bind_ok] at hconv2
      refine ih d1 (fun h => hpre (List.mem_cons_of_mem g h)) hconv2 ?_
      rw [convStep_dget_ne g d d1 f hstep (fun h => hgf h.symm)]
      exact hs

/-- An iteration document whose `start_date` is a bare calendar date, as
the input side of the API accepts. -/
def exC8Doc : Doc :=
  [("id", .pint 5), ("name", .pstr "Sprint"), ("global_id", .pstr "it-5"),
   ("start_date", .pstr "2024-01-15")]

/-- Counterexample to C8: decoding an iteration whose `start_date` is the
bare calendar date `2024-01-15` succeeds and yields a timestamp value with
no UTC offset — a naive datetime — contradicting the claim that every
hydrated date attribute carries explicit offset information. -/
theorem c8_counterexample_bare_date_naive :
    (iterationFromJson exC8Doc).map (fun r => getAttr r.2 "start_date") =
      .ok (some (.pdt ⟨2024, 1, 15, 0, 0, 0, none⟩)) ∧
    (⟨2024, 1, 15, 0, 0, 0, none⟩ : DT).tz = none :=
  ⟨rfl, rfl⟩

/-- C8 amended: a hydrated iteration `start_date` supplied as a string
always holds exactly the temporal normalizer's output for that string —
still a timestamp value in every case, but carrying a UTC offset only when
the string has an explicit `Z` or numeric-offset suffix: a full
`Z`-suffixed timestamp normalizes with offset zero, while a bare calendar
date normalizes to a naive midnight timestamp with no offset. -/
theorem c8_amended_offset_tracks_normalizer :
    (∀ (d d2 : Doc) (v : PyVal) (s : String),
        iterationFromJson d = .ok (d2, v) →
        dget d "start_date" = some (.pstr s) →
        ∃ dt, normalizeDT s = some dt ∧
          getAttr v "start_date" = some (.pdt dt)) ∧
    normalizeDT "2024-01-15T00:00:00Z" =
      some ⟨2024, 1, 15, 0, 0, 0, some 0⟩ ∧
    normalizeDT "2024-01-15" = some ⟨2024, 1, 15, 0, 0, 0, none⟩ := by
  refine ⟨?_, rfl, rfl⟩
  intro d d2 v s h hs
  cases hconv : convertDates iterationDateFields d with
  | error e =>
    have habs : iterationFromJson d = .error e := by
      show convertDates iterationDateFields d >>=
        (fun d' => dcCall "Iteration" iterationFields d' >>=
          fun w => .ok (d', w)) = _
      rw [hconv, exc_bind_err]
    rw [habs] at h
    exact Except.noConfusion h
  | ok dmid =>
    obtain ⟨dt, hn, hval⟩ := convertDates_converts_str
      ["created_at", "updated_at"] ["end_date"] "start_date" d dmid s
      (by decide) (by decide) hconv hs
    have hsf : iterationFromJson d =
        dcCall "Iteration" iterationFields dmid >>=
          fun w => .ok (dmid, w) := by
      show convertDates iterationDateFields d >>=
        (fun d' => dcCall "Iteration" iterationFields d' >>=
          fun w => .ok (d', w)) = _
      rw [hconv, exc_bind_ok]
    rw [hsf] at h
    cases hdc : dcCall "Iteration" iterationFields dmid with
    | error e =>
      rw [hdc, exc_bind_err] at h
      exact Except.noConfusion h
    | ok w =>
      rw [hdc, exc_bind_ok] at h
      have hpair : (dmid, w) = (d2, v) := Except.ok.inj h
      have hv : w = v := congrArg Prod.snd hpair
      have hshape := dcCall_ok_shape "Iteration" iterationFields dmid w hdc
      refine ⟨dt, hn, ?_⟩
      rw [← hv, hshape]
      show dget (iterationFields.map
        (fun f => (f.name, (dget dmid f.name).getD (f.default.getD .pnone))))
        "start_date" = some (.pdt dt)
      rw [show dget (iterationFields.map
        (fun f => (f.name, (dget dmid f.name).getD (f.default.getD .pnone))))
        "start_date" =
        (dget dmid "start_date").getD PyVal.pnone from rfl, hval]
      rfl

/-- The post-call state of `exC8Doc` (bare date converted in place). -/
def exC8Post : Doc :=
  [("id", .pint 5), ("name", .pstr "Sprint"), ("global_id", .pstr "it-5"),
   ("start_date", .pdt ⟨2024, 1, 15, 0, 0, 0, none⟩)]

/-- The iteration value decoded from `exC8Doc`. -/
def exC8Val : PyVal :=
  .pobj "Iteration"
    [("id", .pint 5), ("name", .pstr "Sprint"),
     ("global_id", .pstr "it-5"),
     ("start_date", .pdt ⟨2024, 1, 15, 0, 0, 0, none⟩),
     ("end_date", .pnone), ("status", .pstr "unstarted"),
     ("description", .pnone), ("created_at", .pnone),
     ("updated_at", .pnone), ("app_url", .pnone), ("labels", .plist []),
     ("follower_ids", .plist []), ("group_ids", .plist []),
     ("mention_ids", .plist []), ("member_mention_ids", .plist []),
     ("group_mention_ids", .plist []), ("label_ids", .plist []),
     ("associated_groups", .plist []),
     ("entity_type", .pstr "iteration"), ("stats", .pnone)]

/-- Witness for the amended C8, instantiated at the bare-date document
`exC8Doc`: the decoded `start_date` equals the normalizer's (naive)
output. -/
theorem c8_amended_offset_tracks_normalizer_witness :
    ∃ dt, normalizeDT "2024-01-15" = some dt ∧
      getAttr exC8Val "start_date" = some (.pdt dt) :=
  c8_amended_offset_tracks_normalizer.1 exC8Doc exC8Post exC8Val
    "2024-01-15" rfl rfl

/-! ### Claim C9 -/

theorem mapObjDicts_map_pobj (g : Doc → Doc) (n : String)
    (cats : List Doc) :
    mapObjDicts g (cats.map (fun c => PyVal.pobj n c)) =
      .ok (cats.map (fun c => PyVal.pdict (g c))) := by
  induction cats with
  | nil => rfl
  | cons c rest ih =>
    show (objDict (.pobj n c) >>= fun fl =>
      mapObjDicts g (rest.map (fun c => PyVal.pobj n c)) >>= fun r =>
        Except.ok (.pdict (g fl) :: r)) = _
    rw [show objDict (.pobj n c) = .ok c from rfl, exc_bind_ok, ih,
      exc_bind_ok]
    rfl

/-- The field map of an `UpdateMilestoneInput` with `name` set and one
category sub-record holding only `name`. -/
def exC9Update : Doc :=
  [("name", .pstr "v2"), ("description", .pnone), ("state", .pnone),
   ("archived", .pnone), ("started_at_override", .pnone),
   ("completed_at_override", .pnone),
   ("categories", .plist
     [.pobj "CreateCategoryParams"
       [("name", .pstr "Engineering"), ("color", .pnone),
        ("external_id", .pnone), ("id", .pnone)]]),
   ("before_id", .pnone), ("after_id", .pnone)]

/-- Counterexample to C9: `update_milestone` embeds each category
sub-record's raw field map without applying the `None`-omission rule to
it, so the emitted sub-document still carries null-valued keys (`color`,
`external_id`, `id`). -/
theorem c9_counterexample_update_milestone_keeps_nested_null :
    updateMilestoneBody exC9Update = .ok
      [("name", .pstr "v2"),
       ("categories", .plist
         [.pdict
           [("name", .pstr "Engineering"), ("color", .pnone),
            ("external_id", .pnone), ("id", .pnone)]])] ∧
    dget [("name", .pstr "Engineering"), ("color", .pnone),
      ("external_id", .pnone), ("id", .pnone)] "color" = some .pnone :=
  ⟨rfl, rfl⟩

/-- C9 amended: the recursive `None`-omission of nested Input sub-records
holds for `create_milestone` and `update_custom_field`, whose emitted
sub-documents are the cleaned field maps and therefore never carry a
null-valued key; `update_milestone`, however, embeds each category's raw
field map verbatim, so `None`-valued sub-record fields are emitted as
null there. -/
theorem c9_amended_nested_encoding (m cf m2 : Doc)
    (cats vals cats2 : List Doc)
    (hm : dget (cleanDict m) "categories" = some (.plist
      (cats.map (fun c => PyVal.pobj "CreateCategoryParams" c))))
    (hmne : cats ≠ [])
    (hcf : dget (cleanDict cf) "values" = some (.plist
      (vals.map (fun c => PyVal.pobj "UpdateCustomFieldEnumValue" c))))
    (hcfne : vals ≠ [])
    (hm2 : dget (cleanDict m2) "categories" = some (.plist
      (cats2.map (fun c => PyVal.pobj "CreateCategoryParams" c))))
    (hm2ne : cats2 ≠ []) :
    createMilestoneBody m = .ok (setKey (cleanDict m) "categories"
      (.plist (cats.map (fun c => PyVal.pdict (cleanDict c))))) ∧
    updateCustomFieldBody cf = .ok (setKey (cleanDict cf) "values"
      (.plist (vals.map (fun c => PyVal.pdict (cleanDict c))))) ∧
    updateMilestoneBody m2 = .ok (setKey (cleanDict m2) "categories"
      (.plist (cats2.map (fun c => PyVal.pdict c)))) ∧
    (∀ (c : Doc) (k : String),
      dget (cleanDict c) k ≠ some PyVal.pnone) := by
  refine ⟨?_, ?_, ?_, ?_⟩
  · cases cats with
    | nil => exact absurd rfl hmne
    | cons c crest =>
      show (match dget (cleanDict m) "categories" with
        | some v =>
          if truthy v then
            match v with
            | .plist cs => do
              let cs' ← mapObjDicts cleanDict cs
              Except.ok (setKey (cleanDict m) "categories" (.plist cs'))
            | _ =>
              (Except.error (.typeError "categories is not a list of records")
                : Except PyErr Doc)
          else .ok (cleanDict m)
        | none => .ok (cleanDict m)) = _
      rw [hm]
      show (mapObjDicts cleanDict
          ((c :: crest).map (fun c => PyVal.pobj "CreateCategoryParams" c))
          >>= fun cs' =>
        Except.ok (setKey (cleanDict m) "categories" (.plist cs'))) = _
      rw [mapObjDicts_map_pobj, exc_bind_ok]
  · cases vals with
    | nil => exact absurd rfl hcfne
    | cons c crest =>
      show (match dget (cleanDict cf) "values" with
        | some v =>
          if truthy v then
            match v with
            | .plist vs => do
              let vs' ← mapObjDicts cleanDict vs
              Except.ok (setKey (cleanDict cf) "values" (.plist vs'))
            | _ =>
              (Except.error (.typeError "values is not a list of records")
                : Except PyErr Doc)
          else .ok (cleanDict cf)
        | none => .ok (cleanDict cf)) = _
      rw [hcf]
      show (mapObjDicts cleanDict
          ((c :: crest).map
            (fun c => PyVal.pobj "UpdateCustomFieldEnumValue" c))
          >>= fun vs' =>
        Except.ok (setKey (cleanDict cf) "values" (.plist vs'))) = _
      rw [mapObjDicts_map_pobj, exc_bind_ok]
  · cases cats2 with
    | nil => exact absurd rfl hm2ne
    | cons c crest =>
      show (match dget (cleanDict m2) "categories" with
        | some v =>
          if truthy v then
            match v with
            | .plist cs => do
              let cs' ← mapObjDicts (fun fl => fl) cs
              Except.ok (setKey (cleanDict m2) "categories" (.plist cs'))
            | _ =>
              (Except.error (.typeError "categories is not a list of records")
                : Except PyErr Doc)
          else .ok (cleanDict m2)
        | none => .ok (cleanDict m2)) = _
      rw [hm2]
      show (mapObjDicts (fun fl => fl)
          ((c :: crest).map (fun c => PyVal.pobj "CreateCategoryParams" c))
          >>= fun cs' =>
        Except.ok (setKey (cleanDict m2) "categories" (.plist cs'))) = _
      rw [mapObjDicts_map_pobj, exc_bind_ok]
  · intro c k hcontra
    exact Bool.noConfusion (cleanDict_dget_ne_none c k .pnone hcontra)

/-- The field map of a `CreateMilestoneInput` with one category. -/
def exC9Create : Doc :=
  [("name", .pstr "Release"), ("description", .pnone),
   ("state", .pstr "to do"), ("started_at_override", .pnone),
   ("completed_at_override", .pnone),
   ("categories", .plist
     [.pobj "CreateCategoryParams"
       [("name", .pstr "Engineering"), ("color", .pnone),
        ("external_id", .pnone), ("id", .pnone)]])]

/-- The field map of an `UpdateCustomFieldInput` with one enum value. -/
def exC9CustomField : Doc :=
  [("name", .pnone), ("description", .pnone), ("enabled", .pbool true),
   ("icon_set_identifier", .pnone),
   ("values", .plist
     [.pobj "UpdateCustomFieldEnumValue"
       [("id", .pstr "val-1"), ("value", .pstr "High"),
        ("color_key", .pnone), ("enabled", .pnone)]]),
   ("before_id", .pnone), ("after_id", .pnone)]

/-- Witness for the amended C9 at concrete milestone and custom-field
inputs. -/
theorem c9_amended_nested_encoding_witness :
    createMilestoneBody exC9Create = .ok
      [("name", .pstr "Release"), ("state", .pstr "to do"),
       ("categories", .plist
         [.pdict [("name", .pstr "Engineering")]])] ∧
    updateCustomFieldBody exC9CustomField = .ok
      [("enabled", .pbool true),
       ("values", .plist
         [.pdict [("id", .pstr "val-1"), ("value", .pstr "High")]])] ∧
    updateMilestoneBody exC9Update = .ok
      [("name", .pstr "v2"),
       ("categories", .plist
         [.pdict
           [("name", .pstr "Engineering"), ("color", .pnone),
            ("external_id", .pnone), ("id", .pnone)]])] ∧
    (∀ (k : String), dget (cleanDict
      [("name", .pstr "Engineering"), ("color", .pnone),
       ("external_id", .pnone), ("id", .pnone)]) k ≠ some PyVal.pnone) := by
  obtain ⟨h1, h2, h3, h4⟩ := c9_amended_nested_encoding exC9Create
    exC9CustomField exC9Update
    [[("name", .pstr "Engineering"), ("color", .pnone),
      ("external_id", .pnone), ("id", .pnone)]]
    [[("id", .pstr "val-1"), ("value", .pstr "High"),
      ("color_key", .pnone), ("enabled", .pnone)]]
    [[("name", .pstr "Engineering"), ("color", .pnone),
      ("external_id", .pnone), ("id", .pnone)]]
    rfl (by intro h; exact List.noConfusion h)
    rfl (by intro h; exact List.noConfusion h)
    rfl (by intro h; exact List.noConfusion h)
  exact ⟨by rw [h1]; rfl, by rw [h2]; rfl, by rw [h3]; rfl,
    fun k => h4 [("name", .pstr "Engineering"), ("color", .pnone),
      ("external_id", .pnone), ("id", .pnone)] k⟩
